import Mathlib

/-!
Verification of the sync core of zotero-better-notes.

The embedding follows the two source files:
* `src/unnamed/part_000` — scheduler (`setSyncing`), orchestrator
  (`callSyncing`) and three-way comparator (`doCompare`), plus `SyncCode`.
* `src/src/modules/export/api.ts` — `exportNotes` (the `setAutoSync`
  branch) and `toSync`.

External collaborators (`addon.api.sync`, `addon.api.$export.syncMDBatch`,
`addon.api.$import.fromMD`, `addon.hooks.onShowSyncDiff`, the md5 digest,
the sync-status store) are modelled as components of an explicit
environment; the sync-status store is the only shared mutable state apart
from the lock, and the fallible collaborators return `Except` so that a
thrown exception is representable. Pure UI calls (`progress.changeLine`,
`showHint`, `ztoolkit.log`, `progress.startCloseTimer`) carry no
program-visible state and are elided, except for the creation of the
progress window, which is recorded as a trace event because its presence
and title are specified behaviour.
-/

namespace BetterNotes

/-- `enum SyncCode` at the bottom of `part_000`. -/
inductive SyncCode where
  | UpToDate
  | NoteAhead
  | MDAhead
  | NeedDiff
deriving DecidableEq, Repr

/-- The persisted sync record (`SyncStatus` in the source): file location,
checksums at last sync, last-sync timestamp. -/
structure SyncStatus where
  itemID : Nat
  path : String
  filename : String
  md5 : String
  noteMd5 : String
  lastsync : Nat
deriving DecidableEq, Repr

/-- Parsed metadata of the markdown file; `version` is the version marker
declared in the file header (negative = unreadable). -/
structure MDMeta where
  version : Int
deriving DecidableEq, Repr

/-- `MDStatus` as consumed by `doCompare`: `meta` is `none` when no file
exists at the recorded path, and `content` is the file content. -/
structure MDStatus where
  meta : Option MDMeta
  content : String
deriving DecidableEq, Repr

/-- The slice of `Zotero.Item` that `doCompare` reads: `getNote()` and the
`version` counter. -/
structure NoteItem where
  id : Nat
  note : String
  version : Int
deriving DecidableEq, Repr

/-- `doCompare` (`part_000` lines 189–226).  The md5 digest
(`Zotero.Utilities.Internal.md5`) is an abstract function parameter.
The source sets `noteAhead` by two separate `if`s (checksum mismatch at
lines 209–211, version mismatch at lines 212–216); that is the
disjunction below. -/
def doCompare (md5fn : String → String) (syncStatus : SyncStatus)
    (mdStatus : MDStatus) (noteItem : NoteItem) : SyncCode :=
  match mdStatus.meta with
  | none => SyncCode.NoteAhead
  | some meta =>
    if meta.version < 0 then SyncCode.NeedDiff
    else
      let md5 := md5fn mdStatus.content
      let noteMd5 := md5fn noteItem.note
      let MDAhead : Prop := md5 ≠ syncStatus.md5
      let noteAhead : Prop :=
        noteMd5 ≠ syncStatus.noteMd5 ∨ meta.version ≠ noteItem.version
      if noteAhead ∧ MDAhead then SyncCode.NeedDiff
      else if noteAhead then SyncCode.NoteAhead
      else if MDAhead then SyncCode.MDAhead
      else SyncCode.UpToDate

/-- C1: with the file present and a non-negative version marker, the four
outcomes of `doCompare` are exactly the four combinations of "note side
classified as changed" (note checksum mismatch or version mismatch) and
"file side classified as changed" (file checksum mismatch); the four
cases are mutually exclusive since they characterise distinct
constructors. -/
theorem doCompare_partition (md5fn : String → String) (ss : SyncStatus)
    (md : MDStatus) (it : NoteItem) (m : MDMeta)
    (hmeta : md.meta = some m) (hv : 0 ≤ m.version) :
    (doCompare md5fn ss md it = SyncCode.NeedDiff ↔
      (md5fn it.note ≠ ss.noteMd5 ∨ m.version ≠ it.version) ∧
        md5fn md.content ≠ ss.md5) ∧
    (doCompare md5fn ss md it = SyncCode.NoteAhead ↔
      (md5fn it.note ≠ ss.noteMd5 ∨ m.version ≠ it.version) ∧
        md5fn md.content = ss.md5) ∧
    (doCompare md5fn ss md it = SyncCode.MDAhead ↔
      (md5fn it.note = ss.noteMd5 ∧ m.version = it.version) ∧
        md5fn md.content ≠ ss.md5) ∧
    (doCompare md5fn ss md it = SyncCode.UpToDate ↔
      (md5fn it.note = ss.noteMd5 ∧ m.version = it.version) ∧
        md5fn md.content = ss.md5) := by
  have hv' : ¬ m.version < 0 := not_lt.mpr hv
  by_cases hmd : md5fn md.content = ss.md5 <;>
    by_cases hnm : md5fn it.note = ss.noteMd5 <;>
      by_cases hver : m.version = it.version <;>
        first
        | simp [doCompare, hmeta, hv', hmd, hnm, hver, hver ▸ hv']
        | simp [doCompare, hmeta, hv', hmd, hnm, hver]

/-- Concrete instantiation of `doCompare_partition`: all checksums match
and the versions agree, so the outcome is `UpToDate`. -/
theorem doCompare_partition_witness :
    doCompare (fun s => s) ⟨1, "d", "f.md", "c", "n", 0⟩
      ⟨some ⟨3⟩, "c"⟩ ⟨1, "n", 3⟩ = SyncCode.UpToDate :=
  ((doCompare_partition (fun s => s) ⟨1, "d", "f.md", "c", "n", 0⟩
      ⟨some ⟨3⟩, "c"⟩ ⟨1, "n", 3⟩ ⟨3⟩ rfl (by decide)).2.2.2).mpr
    (by exact ⟨⟨rfl, rfl⟩, rfl⟩)

/-- C5: file present, non-negative version marker, both checksums match
their recorded values, but the note's version counter differs from the
file's declared version marker — `doCompare` classifies the note side as
changed and returns `NoteAhead`. -/
theorem doCompare_version_mismatch (md5fn : String → String)
    (ss : SyncStatus) (md : MDStatus) (it : NoteItem) (m : MDMeta)
    (hmeta : md.meta = some m) (hv : 0 ≤ m.version)
    (hfile : md5fn md.content = ss.md5)
    (hnote : md5fn it.note = ss.noteMd5)
    (hver : m.version ≠ it.version) :
    doCompare md5fn ss md it = SyncCode.NoteAhead := by
  have hv' : ¬ m.version < 0 := not_lt.mpr hv
  simp [doCompare, hmeta, hv', hfile, hnote, hver]

/-- Concrete instantiation of `doCompare_version_mismatch`: checksums
match but file declares version 3 while the note is at version 4. -/
theorem doCompare_version_mismatch_witness :
    doCompare (fun s => s) ⟨1, "d", "f.md", "c", "n", 0⟩
      ⟨some ⟨3⟩, "c"⟩ ⟨1, "n", 4⟩ = SyncCode.NoteAhead :=
  doCompare_version_mismatch (fun s => s) ⟨1, "d", "f.md", "c", "n", 0⟩
    ⟨some ⟨3⟩, "c"⟩ ⟨1, "n", 4⟩ ⟨3⟩ rfl (by decide) rfl rfl (by decide)

/-- C6: when the file's metadata is present but declares a negative
version marker, `doCompare` returns `NeedDiff` (`NeedsResolution`)
before any checksum is consulted. -/
theorem doCompare_negative_version (md5fn : String → String)
    (ss : SyncStatus) (md : MDStatus) (it : NoteItem) (m : MDMeta)
    (hmeta : md.meta = some m) (hv : m.version < 0) :
    doCompare md5fn ss md it = SyncCode.NeedDiff := by
  simp [doCompare, hmeta, hv]

/-- Concrete instantiation of `doCompare_negative_version`: version
marker −1 with all checksums equal to the recorded ones. -/
theorem doCompare_negative_version_witness :
    doCompare (fun s => s) ⟨1, "d", "f.md", "c", "n", 0⟩
      ⟨some ⟨-1⟩, "c"⟩ ⟨1, "n", 3⟩ = SyncCode.NeedDiff :=
  doCompare_negative_version (fun s => s) ⟨1, "d", "f.md", "c", "n", 0⟩
    ⟨some ⟨-1⟩, "c"⟩ ⟨1, "n", 3⟩ ⟨-1⟩ rfl (by decide)

/-! ## Scheduler (`setSyncing`, `part_000` lines 7–26)

`setSyncing` installs a recurring timer when the configured period is
positive.  The timer callback (lines 11–23) re-reads `addon.data.alive`,
`document.hasFocus()` and the `syncPeriodSeconds` preference on every
tick; those ambient values are the per-tick input below.  When `alive`
is false the callback shows the stop hint and clears the interval, but
the source has no early return there, so the focus check at line 17
still runs on that same tick. -/

/-- The ambient values the timer callback reads on one tick. -/
structure TickInput where
  alive : Bool
  hasFocus : Bool
  syncPeriodSeconds : Int
deriving DecidableEq, Repr

/-- One execution of the timer callback (`part_000` lines 11–23), given
the tick's ambient input and whether the interval is currently
installed.  Returns the interval's installed state after the tick and
whether `callSyncing` was invoked on this tick. -/
def tickBody (inp : TickInput) (timerActive : Bool) : Bool × Bool :=
  let timer1 := if inp.alive then timerActive else false
  if inp.hasFocus ∧ inp.syncPeriodSeconds > 0 then (timer1, true)
  else (timer1, false)

/-- A sequence of timer firings: the callback body runs only while the
interval is installed; once cleared, no tick runs it again.  Returns,
per tick, whether a sync was triggered. -/
def runTicks : Bool → List TickInput → List Bool
  | _, [] => []
  | active, inp :: rest =>
    if active then
      let r := tickBody inp active
      r.2 :: runTicks r.1 rest
    else false :: runTicks active rest

/-- `setSyncing` (`part_000` lines 7–9, 24–25): the interval is installed
exactly when the configured period is positive. -/
def setSyncing (syncPeriod : Int) : Bool :=
  syncPeriod > 0

/-- C7 evidence: on a tick where the host has been torn down
(`alive = false`) while the window has focus and the configured period
is positive, the callback does cancel the interval (first component
`false`) but still triggers a sync on that very tick (second component
`true`), because the source lacks a return after `clearInterval`.  Once
the interval is cleared, no later tick triggers anything. -/
theorem tickBody_teardown_still_syncs :
    tickBody { alive := false, hasFocus := true, syncPeriodSeconds := 1 }
      true = (false, true) ∧
    ∀ l : List TickInput, runTicks false l =
      List.replicate l.length false := by
  refine ⟨by decide, ?_⟩
  intro l
  induction l with
  | nil => rfl
  | cons a t ih => simp [runTicks, ih, List.replicate]

/-! ## Orchestrator (`callSyncing`, `part_000` lines 28–187)

The sync-status store (`addon.api.sync`'s persisted records) is the only
shared mutable state besides the lock; collaborators that perform I/O
(`getMDStatus`, `syncMDBatch`, `fromMD`, `onShowSyncDiff`) may throw, so
they return `Except`.  The run is recorded as a trace of events: the
creation of the progress window, one `compare` per candidate note, one
`exportBatch` per destination directory, one `importNote` per imported
record (covering the `fromMD` call and the follow-up single-note
`syncMDBatch` at line 150), and one `resolveConflict` per conflict
record. -/

/-- The sync-status store: note id to persisted record. -/
def Store : Type := Nat → SyncStatus

/-- Observable actions of one orchestrator run, in execution order. -/
inductive Event where
  | progressCreate (title : String)
  | compare (noteId : Nat)
  | exportBatch (path : String) (ids : List Nat)
  | importNote (noteId : Nat)
  | resolveConflict (noteId : Nat)
deriving DecidableEq, Repr

/-- The collaborators `callSyncing` consumes, as one environment.
`envName` is `addon.data.env`; `getSyncNoteIds`, `isSyncNote` and
`getSyncStatus` come from `addon.api.sync`; `activeNoteIds` is the list
of targets of focused editor instances (lines 60–66); the last three are
the fallible dispatch collaborators, acting on the store. -/
structure Env where
  envName : String
  md5fn : String → String
  getSyncNoteIds : List Nat
  isSyncNote : Nat → Bool
  getSyncStatus : Nat → SyncStatus
  getMDStatus : Nat → Except String MDStatus
  getItem : Nat → NoteItem
  activeNoteIds : List Nat
  syncMDBatch : String → List Nat → Store → Except String Store
  fromMD : String → Nat → Store → Except String Store
  onShowSyncDiff : Nat → String → Store → Except String Store

/-- `addon.data.sync.lock` together with the sync-status store. -/
structure AddonState where
  lock : Bool
  store : Store

/-- Options of `callSyncing` (lines 30–34). -/
structure SyncOptions where
  quiet : Bool
  skipActive : Bool
  reason : String

/-- Input resolution (lines 49–53): an empty argument means all notes
under sync; an explicit list is filtered down to notes under sync. -/
def resolveInput (env : Env) (items : List Nat) : List Nat :=
  if items.isEmpty then env.getSyncNoteIds
  else items.filter env.isSyncNote

/-- Active-editor exclusion (lines 58–72). -/
def filterActive (env : Env) (skipActive : Bool) (items : List Nat) :
    List Nat :=
  if skipActive then
    items.filter (fun id => !env.activeNoteIds.contains id)
  else items

/-- `OS.Path.join` as used at lines 147 and 163. -/
def pathJoin (dir file : String) : String :=
  dir ++ "/" ++ file

/-- The partition built by the comparison loop (lines 91–93): `toExport`
is keyed by destination directory in first-insertion order, matching the
iteration order of `Object.keys`. -/
structure CompareAcc where
  toExport : List (String × List Nat)
  toImport : List SyncStatus
  toDiff : List SyncStatus

/-- `toExport[filepath].push(item.id)` resp. `toExport[filepath] =
[item.id]` (lines 101–105). -/
def addExport (acc : List (String × List Nat)) (path : String) (id : Nat) :
    List (String × List Nat) :=
  if acc.any (fun p => p.1 = path) then
    acc.map (fun p => if p.1 = path then (p.1, p.2 ++ [id]) else p)
  else acc ++ [(path, [id])]

/-- Comparison pass (lines 95–123): run `doCompare` on each candidate,
partitioning the outcomes.  A throwing `getMDStatus` aborts the pass
(the exception propagates to the orchestrator's catch). -/
def compareLoop (env : Env) :
    List Nat → CompareAcc → List Event × Except String CompareAcc
  | [], acc => ([], Except.ok acc)
  | id :: rest, acc =>
    match env.getMDStatus id with
    | Except.error e => ([Event.compare id], Except.error e)
    | Except.ok mdStatus =>
      let ss := env.getSyncStatus id
      let code := doCompare env.md5fn ss mdStatus (env.getItem id)
      let acc' :=
        match code with
        | SyncCode.NoteAhead =>
          { acc with toExport := addExport acc.toExport ss.path id }
        | SyncCode.MDAhead => { acc with toImport := acc.toImport ++ [ss] }
        | SyncCode.NeedDiff => { acc with toDiff := acc.toDiff ++ [ss] }
        | SyncCode.UpToDate => acc
      let next := compareLoop env rest acc'
      (Event.compare id :: next.1, next.2)

/-- Export dispatch (lines 126–136): one batched `syncMDBatch` per
destination directory.  The `Bool` is true when a collaborator threw,
which aborts the remaining dispatch. -/
def exportLoop (env : Env) :
    List (String × List Nat) → Store → List Event × Store × Bool
  | [], st => ([], st, false)
  | (path, ids) :: rest, st =>
    match env.syncMDBatch path ids st with
    | Except.error _ => ([Event.exportBatch path ids], st, true)
    | Except.ok st' =>
      let next := exportLoop env rest st'
      (Event.exportBatch path ids :: next.1, next.2)

/-- Import dispatch (lines 139–152): per record, `fromMD` into the note
and then a single-note `syncMDBatch` to re-derive the file metadata. -/
def importLoop (env : Env) :
    List SyncStatus → Store → List Event × Store × Bool
  | [], st => ([], st, false)
  | s :: rest, st =>
    match env.fromMD (pathJoin s.path s.filename) s.itemID st with
    | Except.error _ => ([Event.importNote s.itemID], st, true)
    | Except.ok st1 =>
      match env.syncMDBatch s.path [s.itemID] st1 with
      | Except.error _ => ([Event.importNote s.itemID], st1, true)
      | Except.ok st2 =>
        let next := importLoop env rest st2
        (Event.importNote s.itemID :: next.1, next.2)

/-- Conflict dispatch (lines 153–166): `onShowSyncDiff` per record. -/
def diffLoop (env : Env) :
    List SyncStatus → Store → List Event × Store × Bool
  | [], st => ([], st, false)
  | s :: rest, st =>
    match env.onShowSyncDiff s.itemID (pathJoin s.path s.filename) st with
    | Except.error _ => ([Event.resolveConflict s.itemID], st, true)
    | Except.ok st' =>
      let next := diffLoop env rest st'
      (Event.resolveConflict s.itemID :: next.1, next.2)

/-- `callSyncing` (lines 28–187).  In order: the development-mode quiet
override (lines 36–39), the single-flight lock check (lines 40–43), lock
acquisition, input resolution, the empty-set early return that releases
the lock (lines 54–57), active-editor filtering, progress-window
creation when not quiet (lines 75–89, title shows the reason in
development mode), the comparison pass, and the three dispatch passes.
Any exception from a collaborator is caught (line 180) and only skips
the rest of the try block; the lock is cleared on the way out
(line 186), so the function itself is total: it returns the trace and
the final state, never an exception. -/
def callSyncing (env : Env) (items : List Nat) (opts : SyncOptions)
    (st : AddonState) : List Event × AddonState :=
  let quiet := if env.envName = "development" then false else opts.quiet
  if st.lock then ([], st)
  else
    let items1 := resolveInput env items
    if items1.isEmpty then ([], { st with lock := false })
    else
      let items2 := filterActive env opts.skipActive items1
      let tr0 : List Event :=
        if quiet then []
        else
          [Event.progressCreate
            (if env.envName = "development" then opts.reason
             else "Better Notes")]
      let c := compareLoop env items2 ⟨[], [], []⟩
      match c.2 with
      | Except.error _ => (tr0 ++ c.1, { st with lock := false })
      | Except.ok acc =>
        let ex := exportLoop env acc.toExport st.store
        if ex.2.2 then
          (tr0 ++ c.1 ++ ex.1, { lock := false, store := ex.2.1 })
        else
          let im := importLoop env acc.toImport ex.2.1
          if im.2.2 then
            (tr0 ++ c.1 ++ ex.1 ++ im.1, { lock := false, store := im.2.1 })
          else
            let df := diffLoop env acc.toDiff im.2.1
            (tr0 ++ c.1 ++ ex.1 ++ im.1 ++ df.1,
              { lock := false, store := df.2.1 })

/-- Phase of an event in the run: progress window first, then the
comparison pass, then the three dispatch passes in their fixed order. -/
def eventPhase : Event → Nat
  | Event.progressCreate _ => 0
  | Event.compare _ => 1
  | Event.exportBatch _ _ => 2
  | Event.importNote _ => 3
  | Event.resolveConflict _ => 4

/-- A trace respects the phase order when no event of a later phase is
followed by an event of an earlier phase. -/
def PhaseOrdered (tr : List Event) : Prop :=
  tr.Pairwise (fun a b => eventPhase a ≤ eventPhase b)

theorem tr0_phases (c : Prop) [Decidable c] (t : String) :
    ∀ e ∈ (if c then ([] : List Event) else [Event.progressCreate t]),
      eventPhase e = 0 := by
  intro e he
  by_cases h : c
  · simp [h] at he
  · simp [h] at he
    subst he
    rfl

theorem compareLoop_phases (env : Env) (l : List Nat) (acc : CompareAcc) :
    ∀ e ∈ (compareLoop env l acc).1, eventPhase e = 1 := by
  induction l generalizing acc with
  | nil =>
    intro e he
    simp [compareLoop] at he
  | cons id rest ih =>
    intro e he
    simp only [compareLoop] at he
    split at he
    · simp at he
      subst he
      rfl
    · simp at he
      rcases he with rfl | he
      · rfl
      · exact ih _ e he

theorem exportLoop_phases (env : Env) (l : List (String × List Nat))
    (st : Store) : ∀ e ∈ (exportLoop env l st).1, eventPhase e = 2 := by
  induction l generalizing st with
  | nil =>
    intro e he
    simp [exportLoop] at he
  | cons p rest ih =>
    intro e he
    obtain ⟨path, ids⟩ := p
    simp only [exportLoop] at he
    split at he
    · simp at he
      subst he
      rfl
    · simp at he
      rcases he with rfl | he
      · rfl
      · exact ih _ e he

theorem importLoop_phases (env : Env) (l : List SyncStatus)
    (st : Store) : ∀ e ∈ (importLoop env l st).1, eventPhase e = 3 := by
  induction l generalizing st with
  | nil =>
    intro e he
    simp [importLoop] at he
  | cons s rest ih =>
    intro e he
    simp only [importLoop] at he
    split at he
    · simp at he
      subst he
      rfl
    · split at he
      · simp at he
        subst he
        rfl
      · simp at he
        rcases he with rfl | he
        · rfl
        · exact ih _ e he

theorem diffLoop_phases (env : Env) (l : List SyncStatus)
    (st : Store) : ∀ e ∈ (diffLoop env l st).1, eventPhase e = 4 := by
  induction l generalizing st with
  | nil =>
    intro e he
    simp [diffLoop] at he
  | cons s rest ih =>
    intro e he
    simp only [diffLoop] at he
    split at he
    · simp at he
      subst he
      rfl
    · simp at he
      rcases he with rfl | he
      · rfl
      · exact ih _ e he

theorem pairwise_phase_of_const (l : List Event) (k : Nat)
    (h : ∀ e ∈ l, eventPhase e = k) : PhaseOrdered l := by
  induction l with
  | nil => exact List.Pairwise.nil
  | cons a t ih =>
    refine List.Pairwise.cons ?_ (ih ?_)
    · intro b hb
      rw [h a (List.mem_cons_self a t), h b (List.mem_cons_of_mem a hb)]
    · intro e he
      exact h e (List.mem_cons_of_mem a he)

theorem phaseOrdered_blocks (l0 l1 l2 l3 l4 : List Event)
    (h0 : ∀ e ∈ l0, eventPhase e = 0) (h1 : ∀ e ∈ l1, eventPhase e = 1)
    (h2 : ∀ e ∈ l2, eventPhase e = 2) (h3 : ∀ e ∈ l3, eventPhase e = 3)
    (h4 : ∀ e ∈ l4, eventPhase e = 4) :
    PhaseOrdered (l0 ++ l1 ++ l2 ++ l3 ++ l4) := by
  have b1 : ∀ e ∈ l0 ++ l1, eventPhase e ≤ 1 := by
    intro e he
    rcases List.mem_append.mp he with h | h
    · rw [h0 e h]; omega
    · rw [h1 e h]
  have b2 : ∀ e ∈ l0 ++ l1 ++ l2, eventPhase e ≤ 2 := by
    intro e he
    rcases List.mem_append.mp he with h | h
    · exact le_trans (b1 e h) (by omega)
    · rw [h2 e h]
  have b3 : ∀ e ∈ l0 ++ l1 ++ l2 ++ l3, eventPhase e ≤ 3 := by
    intro e he
    rcases List.mem_append.mp he with h | h
    · exact le_trans (b2 e h) (by omega)
    · rw [h3 e h]
  have q1 : PhaseOrdered (l0 ++ l1) :=
    List.pairwise_append.mpr
      ⟨pairwise_phase_of_const l0 0 h0, pairwise_phase_of_const l1 1 h1,
        fun a ha b hb => by rw [h0 a ha, h1 b hb]; omega⟩
  have q2 : PhaseOrdered (l0 ++ l1 ++ l2) :=
    List.pairwise_append.mpr
      ⟨q1, pairwise_phase_of_const l2 2 h2,
        fun a ha b hb => by rw [h2 b hb]; exact le_trans (b1 a ha) (by omega)⟩
  have q3 : PhaseOrdered (l0 ++ l1 ++ l2 ++ l3) :=
    List.pairwise_append.mpr
      ⟨q2, pairwise_phase_of_const l3 3 h3,
        fun a ha b hb => by rw [h3 b hb]; exact le_trans (b2 a ha) (by omega)⟩
  exact
    List.pairwise_append.mpr
      ⟨q3, pairwise_phase_of_const l4 4 h4,
        fun a ha b hb => by rw [h4 b hb]; exact le_trans (b3 a ha) (by omega)⟩

/-- Shared helper: with the lock free at entry, every return branch of
`callSyncing` carries `lock := false`. -/
theorem callSyncing_lock_aux (env : Env) (items : List Nat)
    (opts : SyncOptions) (st : AddonState) (h : st.lock = false) :
    (callSyncing env items opts st).2.lock = false := by
  simp only [callSyncing, h, Bool.false_eq_true, if_false]
  split
  · rfl
  · split
    · rfl
    · split
      · rfl
      · split
        · rfl
        · rfl

/-- A concrete development-mode environment with one note (id 7) under
sync whose note and file agree with the recorded checksums. -/
def envDev : Env where
  envName := "development"
  md5fn := fun s => s
  getSyncNoteIds := [7]
  isSyncNote := fun id => id == 7
  getSyncStatus := fun id => ⟨id, "dir", "note.md", "c", "n", 0⟩
  getMDStatus := fun _ => Except.ok ⟨some ⟨3⟩, "c"⟩
  getItem := fun id => ⟨id, "n", 3⟩
  activeNoteIds := []
  syncMDBatch := fun _ _ s => Except.ok s
  fromMD := fun _ _ s => Except.ok s
  onShowSyncDiff := fun _ _ s => Except.ok s

/-- Like `envDev` but in production mode and with a file-metadata read
that always throws. -/
def envFail : Env :=
  { envDev with
    envName := "production"
    getMDStatus := fun _ => Except.error "io" }

/-- Like `envDev` but in production mode with note 7 open in a focused
editor. -/
def envBusy : Env :=
  { envDev with
    envName := "production"
    activeNoteIds := [7] }

/-- A concrete initial sync-status store. -/
def store0 : Store := fun id => ⟨id, "dir", "note.md", "c", "n", 0⟩

/-- C2: when the process-wide lock is already held, `callSyncing` is a
silent no-op: the trace is empty (no comparison, no dispatch, no
progress window, no error) and the addon state — lock and sync-status
store alike — is returned unchanged. -/
theorem callSyncing_locked_noop (env : Env) (items : List Nat)
    (opts : SyncOptions) (st : AddonState) (h : st.lock = true) :
    callSyncing env items opts st = ([], st) := by
  simp [callSyncing, h]

/-- Concrete instantiation of `callSyncing_locked_noop`. -/
theorem callSyncing_locked_noop_witness :
    callSyncing envDev [7] ⟨true, true, "auto"⟩ ⟨true, store0⟩ =
      ([], ⟨true, store0⟩) :=
  callSyncing_locked_noop envDev [7] ⟨true, true, "auto"⟩ ⟨true, store0⟩ rfl

/-- C3: `callSyncing` is total by construction — every collaborator
failure is consumed inside the definition, so the function returns a
trace and a state, never an exception — and whenever the lock was free
at entry it is free again at return, on the normal path, on the
empty-set early return, and on every aborted path after a throwing
collaborator (the environment is universally quantified, so it covers
arbitrarily failing `getMDStatus`, `syncMDBatch`, `fromMD` and
`onShowSyncDiff`). -/
theorem callSyncing_releases_lock (env : Env) (items : List Nat)
    (opts : SyncOptions) (st : AddonState) (h : st.lock = false) :
    (callSyncing env items opts st).2.lock = false :=
  callSyncing_lock_aux env items opts st h

/-- Concrete instantiation of `callSyncing_releases_lock` on an
environment whose file-metadata read always throws. -/
theorem callSyncing_releases_lock_witness :
    (callSyncing envFail [7] ⟨true, true, "manual"⟩
      ⟨false, store0⟩).2.lock = false :=
  callSyncing_releases_lock envFail [7] ⟨true, true, "manual"⟩
    ⟨false, store0⟩ rfl

/-- C4: every trace of `callSyncing` is phase-ordered — all per-note
comparisons precede every dispatch action, all batched exports precede
every import, and all imports precede every conflict-resolution
invocation, globally across the batch. -/
theorem callSyncing_phase_order (env : Env) (items : List Nat)
    (opts : SyncOptions) (st : AddonState) :
    PhaseOrdered (callSyncing env items opts st).1 := by
  simp only [callSyncing]
  split
  · exact List.Pairwise.nil
  · split
    · exact List.Pairwise.nil
    · split
      · simpa using
          phaseOrdered_blocks _ _ [] [] [] (tr0_phases _ _)
            (compareLoop_phases env _ _) (by simp) (by simp) (by simp)
      · split
        · simpa using
            phaseOrdered_blocks _ _ _ [] [] (tr0_phases _ _)
              (compareLoop_phases env _ _) (exportLoop_phases env _ _)
              (by simp) (by simp)
        · split
          · simpa using
              phaseOrdered_blocks _ _ _ _ [] (tr0_phases _ _)
                (compareLoop_phases env _ _) (exportLoop_phases env _ _)
                (importLoop_phases env _ _) (by simp)
          · exact
              phaseOrdered_blocks _ _ _ _ _ (tr0_phases _ _)
                (compareLoop_phases env _ _) (exportLoop_phases env _ _)
                (importLoop_phases env _ _) (diffLoop_phases env _ _)

/-- C8: when the candidate set is empty after both filters (restriction
to notes under sync, then active-editor exclusion), the run performs no
comparison, export, import, or conflict-resolution action — the trace
holds at most the progress-window creation — and the lock is released at
return. -/
theorem callSyncing_empty_noop (env : Env) (items : List Nat)
    (opts : SyncOptions) (st : AddonState) (hlock : st.lock = false)
    (hempty : filterActive env opts.skipActive (resolveInput env items)
      = []) :
    (∀ e ∈ (callSyncing env items opts st).1, eventPhase e = 0) ∧
      (callSyncing env items opts st).2.lock = false := by
  refine ⟨?_, callSyncing_lock_aux env items opts st hlock⟩
  by_cases h1 : (resolveInput env items).isEmpty
  · simp [callSyncing, hlock, h1]
  · intro e he
    simp only [callSyncing, hlock, Bool.false_eq_true, if_false, h1,
      hempty, compareLoop, exportLoop, importLoop, diffLoop] at he
    simp at he
    rcases he with ⟨-, rfl⟩
    rfl

/-- Concrete instantiation of `callSyncing_empty_noop`: the only note
under sync is open in a focused editor and `skipActive` is set, so the
candidate set filters down to empty. -/
theorem callSyncing_empty_noop_witness :
    (∀ e ∈ (callSyncing envBusy [7] ⟨false, true, "manual"⟩
        ⟨false, store0⟩).1, eventPhase e = 0) ∧
      (callSyncing envBusy [7] ⟨false, true, "manual"⟩
        ⟨false, store0⟩).2.lock = false :=
  callSyncing_empty_noop envBusy [7] ⟨false, true, "manual"⟩
    ⟨false, store0⟩ rfl (by decide)

/-- C9: in development mode the quiet option is overridden to `false`
before anything else, so any run that passes the lock check and the
empty-set early return creates the progress window — whose title shows
the run's reason — no matter what `quiet` the caller passed (including
the scheduler's `quiet := true`). -/
theorem callSyncing_dev_progress (env : Env) (items : List Nat)
    (opts : SyncOptions) (st : AddonState)
    (hdev : env.envName = "development") (hlock : st.lock = false)
    (hne : ¬ (resolveInput env items).isEmpty) :
    Event.progressCreate opts.reason ∈ (callSyncing env items opts st).1 := by
  simp only [callSyncing, hdev, hlock, Bool.false_eq_true, if_false,
    if_true, hne, reduceIte]
  split
  · simp
  · split
    · simp
    · split
      · simp
      · simp

/-- Concrete instantiation of `callSyncing_dev_progress` with the
scheduler's own options (`quiet := true`, reason `"auto"`). -/
theorem callSyncing_dev_progress_witness :
    Event.progressCreate "auto" ∈
      (callSyncing envDev [7] ⟨true, true, "auto"⟩ ⟨false, store0⟩).1 :=
  callSyncing_dev_progress envDev [7] ⟨true, true, "auto"⟩ ⟨false, store0⟩
    rfl rfl (by decide)

/-! ## Export API (`src/src/modules/export/api.ts`)

`toSync` (lines 155–171) enrols a note into sync; the `setAutoSync`
branch of `exportNotes` (lines 76–86) calls it with `overwrite = true`
for the explicitly selected input notes and `overwrite = false` for the
linked notes found recursively (which, by construction at line 62, are
disjoint from the input notes).  Here the store maps a note id to its
record when the note is under sync (`isSyncNote` is record presence). -/

namespace ExportAPI

/-- The persisted sync-status store: `none` = not under sync. -/
def SyncStore : Type := Nat → Option SyncStatus

/-- Collaborators `toSync` consumes: the md5 digest,
`addon.api.sync.getMDFileName` and `noteItem.getNote()`. -/
structure ExportEnv where
  md5fn : String → String
  getMDFileName : Nat → String → String
  getNote : Nat → String

/-- `addon.api.sync.isSyncNote`. -/
def isSyncNote (store : SyncStore) (id : Nat) : Bool :=
  (store id).isSome

/-- `toSync` (api.ts lines 155–171): early return when not overwriting
and the note is already under sync; otherwise write a fresh record with
empty file checksum, the note content's checksum, and last-sync
timestamp 0. -/
def toSync (env : ExportEnv) (noteId : Nat) (syncDir : String)
    (overwrite : Bool) (store : SyncStore) : SyncStore :=
  if !overwrite && isSyncNote store noteId then store
  else fun id =>
    if id = noteId then
      some { itemID := noteId, path := syncDir,
             filename := env.getMDFileName noteId syncDir,
             md5 := "", noteMd5 := env.md5fn (env.getNote noteId),
             lastsync := 0 }
    else store id

/-- The enrolment portion of `exportNotes`'s `setAutoSync` branch
(api.ts lines 76–86): hard reset for the input notes, then enrol-if-new
for the linked notes. -/
def setAutoSyncRecords (env : ExportEnv) (inputIds linkedIds : List Nat)
    (syncDir : String) (store : SyncStore) : SyncStore :=
  let st1 := inputIds.foldl (fun s id => toSync env id syncDir true s) store
  linkedIds.foldl (fun s id => toSync env id syncDir false s) st1

theorem toSync_apply_ne (env : ExportEnv) (m : Nat) (dir : String)
    (ow : Bool) (s : SyncStore) (n : Nat) (h : n ≠ m) :
    toSync env m dir ow s n = s n := by
  unfold toSync
  split
  · rfl
  · simp [h]

theorem toSync_synced_noop (env : ExportEnv) (n : Nat) (dir : String)
    (s : SyncStore) (h : isSyncNote s n = true) :
    toSync env n dir false s = s := by
  simp [toSync, h]

theorem foldl_toSync_true_ne (env : ExportEnv) (dir : String)
    (l : List Nat) (n : Nat) (h : n ∉ l) :
    ∀ s : SyncStore,
      (l.foldl (fun s id => toSync env id dir true s) s) n = s n := by
  induction l with
  | nil => intro s; rfl
  | cons a t ih =>
    intro s
    have hna : n ≠ a := fun hh => h (hh ▸ List.mem_cons_self a t)
    have hnt : n ∉ t := fun hh => h (List.mem_cons_of_mem a hh)
    rw [List.foldl_cons, ih hnt, toSync_apply_ne env a dir true s n hna]

theorem foldl_toSync_false_synced (env : ExportEnv) (dir : String)
    (l : List Nat) (n : Nat) :
    ∀ s : SyncStore, isSyncNote s n = true →
      (l.foldl (fun s id => toSync env id dir false s) s) n = s n := by
  induction l with
  | nil => intro s _; rfl
  | cons a t ih =>
    intro s hs
    by_cases han : a = n
    · subst han
      rw [List.foldl_cons, toSync_synced_noop env a dir s hs]
      exact ih s hs
    · have h1 : toSync env a dir false s n = s n :=
        toSync_apply_ne env a dir false s n (fun hh => han hh.symm)
      have h2 : isSyncNote (toSync env a dir false s) n = true := by
        unfold isSyncNote
        rw [h1]
        exact hs
      rw [List.foldl_cons, ih _ h2, h1]

/-- C10: (i) with `overwrite = false`, `toSync` leaves the store of an
already-synced note completely unchanged; (ii) when the note is not yet
under sync or `overwrite = true`, it writes a record with empty file
checksum, the note content's checksum, and last-sync timestamp 0;
(iii) through the `setAutoSync` enrolment of `exportNotes`, any note
already under sync that is not among the explicitly selected input notes
keeps its record unchanged — linked notes are never hard-reset. -/
theorem toSync_frame (env : ExportEnv) (dir : String) (store : SyncStore)
    (noteId : Nat) (overwrite : Bool) :
    (overwrite = false → isSyncNote store noteId = true →
      toSync env noteId dir overwrite store = store) ∧
    (overwrite = true ∨ isSyncNote store noteId = false →
      toSync env noteId dir overwrite store noteId =
        some { itemID := noteId, path := dir,
               filename := env.getMDFileName noteId dir, md5 := "",
               noteMd5 := env.md5fn (env.getNote noteId),
               lastsync := 0 }) ∧
    (∀ inputIds linkedIds n, isSyncNote store n = true → n ∉ inputIds →
      setAutoSyncRecords env inputIds linkedIds dir store n = store n) := by
  refine ⟨?_, ?_, ?_⟩
  · intro how hsync
    subst how
    exact toSync_synced_noop env noteId dir store hsync
  · intro h
    have hcond : (!overwrite && isSyncNote store noteId) = false := by
      rcases h with h | h <;> simp [h]
    simp [toSync, hcond]
  · intro inputIds linkedIds n hsync hnin
    unfold setAutoSyncRecords
    have h1 := foldl_toSync_true_ne env dir inputIds n hnin store
    have h2 : isSyncNote
        (inputIds.foldl (fun s id => toSync env id dir true s) store) n
        = true := by
      unfold isSyncNote
      rw [h1]
      exact hsync
    rw [foldl_toSync_false_synced env dir linkedIds n _ h2, h1]

/-- Concrete enrolment environment for the witness. -/
def expEnv : ExportEnv where
  md5fn := fun s => s
  getMDFileName := fun _ _ => "note.md"
  getNote := fun _ => "body"

/-- A store with exactly note 5 under sync. -/
def storeC10 : SyncStore := fun id =>
  if id = 5 then some ⟨5, "d", "f.md", "c", "n", 3⟩ else none

/-- Concrete instantiation of `toSync_frame`: re-enrolling synced note 5
without overwrite changes nothing; enrolling fresh note 9 writes the
reset record; the `setAutoSync` pass with input `[9]` and linked `[5]`
leaves note 5's record as it was. -/
theorem toSync_frame_witness :
    toSync expEnv 5 "dir" false storeC10 = storeC10 ∧
    toSync expEnv 9 "dir" false storeC10 9 =
      some ⟨9, "dir", "note.md", "", "body", 0⟩ ∧
    setAutoSyncRecords expEnv [9] [5] "dir" storeC10 5 = storeC10 5 :=
  ⟨(toSync_frame expEnv "dir" storeC10 5 false).1 rfl (by decide),
   (toSync_frame expEnv "dir" storeC10 9 false).2.1 (Or.inr (by decide)),
   (toSync_frame expEnv "dir" storeC10 5 false).2.2 [9] [5] 5 (by decide)
     (by decide)⟩

end ExportAPI

end BetterNotes
